import Mathlib

/-!
Verification of the voice-agent backend (src/backend/main.py).

The development shallowly embeds the session-level logic of the backend:

* the regex-based normalization inside `fill_form_field`
  (lines 155-157 of main.py), modelled over the ASCII fragment that the
  tool inputs range over (Python `\s`, `\b`, `str.lower`, `str.strip`
  restricted to ASCII characters);
* the `FormState` dataclass and the three tool handlers `open_form`,
  `fill_form_field`, `submit_form`, written as pure state-passing
  functions that additionally return the ordered list of side effects
  (the `params.result_callback` call and the `ws.send_json` call);
* the websocket receive loop of `RobustWebsocketTransport`, as a function
  over an inbound message trace;
* the credential check at the top of `websocket_endpoint`;
* a model of the pipeline barge-in policy (see `PipeState` below).
-/

set_option autoImplicit false

namespace VoiceAgent

/-! ## Characters: Python `\s`, `\w`, lowercasing (ASCII fragment) -/

/-- Python whitespace (`\s` and `str.strip`), ASCII fragment:
space, tab, newline, carriage return, vertical tab, form feed. -/
def isPySpace (c : Char) : Bool :=
  c == ' ' || c == '\t' || c == '\n' || c == '\r' ||
  c == Char.ofNat 11 || c == Char.ofNat 12

/-- Python word character (`\w`), ASCII fragment: alphanumeric or underscore. -/
def isWordChar (c : Char) : Bool :=
  c.isAlphanum || c == '_'

/-- Python `str.strip()`: drop whitespace from both ends. -/
def pyStrip (cs : List Char) : List Char :=
  ((cs.dropWhile isPySpace).reverse.dropWhile isPySpace).reverse

/-! ## The regex `\s+at\s+the\s+rate(\s+of)?\s+` replaced by `"@"`
(main.py line 156) -/

/-- Consume one-or-more whitespace characters (`\s+`, greedy); fail when the
input does not start with whitespace. -/
def dropWs1 : List Char → Option (List Char)
  | [] => none
  | c :: cs => if isPySpace c then some (cs.dropWhile isPySpace) else none

/-- Consume an exact literal; fail when the input does not start with it. -/
def dropLit (lit : List Char) (cs : List Char) : Option (List Char) :=
  if lit.isPrefixOf cs then some (cs.drop lit.length) else none

/-- Match `\s+at\s+the\s+rate(\s+of)?\s+` at the head of the input, returning
the remainder after the match.  The optional group is tried first and is
abandoned (backtracking) when the final `\s+` cannot then be satisfied,
exactly as Python's backtracking engine behaves on this pattern. -/
def matchAtRate (cs : List Char) : Option (List Char) := do
  let r ← dropWs1 cs
  let r ← dropLit ['a', 't'] r
  let r ← dropWs1 r
  let r ← dropLit ['t', 'h', 'e'] r
  let r ← dropWs1 r
  let r ← dropLit ['r', 'a', 't', 'e'] r
  match (do
    let r2 ← dropWs1 r
    let r2 ← dropLit ['o', 'f'] r2
    dropWs1 r2 : Option (List Char)) with
  | some r2 => some r2
  | none => dropWs1 r

theorem dropWs1_length {cs r : List Char} (h : dropWs1 cs = some r) :
    r.length < cs.length := by
  cases cs with
  | nil => simp [dropWs1] at h
  | cons c cs =>
    simp only [dropWs1] at h
    split at h
    · cases h
      exact Nat.lt_succ_of_le (List.dropWhile_suffix isPySpace).length_le
    · cases h

theorem dropLit_length {lit cs r : List Char} (h : dropLit lit cs = some r) :
    r.length ≤ cs.length := by
  simp only [dropLit] at h
  split at h
  · cases h; simp
  · cases h

theorem matchAtRate_length {cs r : List Char} (h : matchAtRate cs = some r) :
    r.length < cs.length := by
  simp only [matchAtRate, Option.bind_eq_bind, Option.bind_eq_some] at h
  obtain ⟨r1, h1, r2, h2, r3, h3, r4, h4, r5, h5, r6, h6, h7⟩ := h
  have l1 := dropWs1_length h1
  have l2 := dropLit_length h2
  have l3 := dropWs1_length h3
  have l4 := dropLit_length h4
  have l5 := dropWs1_length h5
  have l6 := dropLit_length h6
  have l7 : r.length ≤ r6.length := by
    split at h7
    case h_1 r7 heq =>
      cases h7
      simp only [Option.bind_eq_bind, Option.bind_eq_some] at heq
      obtain ⟨s1, hs1, s2, hs2, hs3⟩ := heq
      exact le_of_lt (lt_of_lt_of_le (dropWs1_length hs3)
        (le_trans (dropLit_length hs2) (le_of_lt (dropWs1_length hs1))))
    case h_2 heq =>
      exact le_of_lt (dropWs1_length h7)
  omega

/-- One pass of `re.sub(r"\s+at\s+the\s+rate(\s+of)?\s+", "@", text)`:
scan left to right, replace each leftmost non-overlapping match by `@`.
The first argument is fuel, always instantiated with the input length
(every match consumes at least one character, so this fuel suffices). -/
def subAtRateF : Nat → List Char → List Char
  | 0, cs => cs
  | _ + 1, [] => []
  | n + 1, c :: cs =>
    match matchAtRate (c :: cs) with
    | some rest => '@' :: subAtRateF n rest
    | none => c :: subAtRateF n cs

def subAtRate (cs : List Char) : List Char :=
  subAtRateF cs.length cs

/-! ## The regex `\b(my name is|name is|i am|i'm)\b` replaced by `""`
(main.py line 157) -/

/-- The four alternatives, in the order the pattern lists them.
(The last one is the contraction i-apostrophe-m.) -/
def introAlts : List (List Char) :=
  [['m', 'y', ' ', 'n', 'a', 'm', 'e', ' ', 'i', 's'],
   ['n', 'a', 'm', 'e', ' ', 'i', 's'],
   ['i', ' ', 'a', 'm'],
   ['i', Char.ofNat 39, 'm']]

/-- Does the word-boundary `\b` hold after a match ending in a word character?
It holds at end of input or when the next character is not a word character. -/
def boundaryAfter : List Char → Bool
  | [] => true
  | c :: _ => !isWordChar c

/-- Try the alternatives in order at the current position.  Every alternative
starts and ends with a word character, so the leading `\b` is: the previous
character of the original string is not a word character (or we are at the
start), and the trailing `\b` is `boundaryAfter`. -/
def matchIntro (prevIsWord : Bool) (cs : List Char) : Option (List Char) :=
  if prevIsWord then none
  else
    let tryAlt := fun (alt : List Char) =>
      if alt.isPrefixOf cs ∧ boundaryAfter (cs.drop alt.length) then
        some (cs.drop alt.length)
      else none
    match introAlts.findSome? tryAlt with
    | some rest => some rest
    | none => none

theorem matchIntro_length {b : Bool} {cs r : List Char}
    (h : matchIntro b cs = some r) : r.length < cs.length := by
  simp only [matchIntro] at h
  split at h
  · cases h
  · split at h
    case h_1 rest heq =>
      cases h
      obtain ⟨alt, hmem, halt⟩ := List.exists_of_findSome?_eq_some heq
      split at halt
      case isTrue hp =>
        cases halt
        have hlen : 0 < alt.length := by
          have hall : ∀ a ∈ introAlts, 0 < a.length := by decide
          exact hall alt hmem
        have hle : alt.length ≤ cs.length :=
          (List.isPrefixOf_iff_prefix.mp hp.1).length_le
        simp only [List.length_drop]
        omega
      case isFalse => cases halt
    case h_2 => cases h

/-- One pass of `re.sub(r"\b(my name is|name is|i am|i'm)\b", "", text)`:
scan left to right carrying whether the previous character of the *original*
string is a word character (the boundary checks of `re.sub` look at the
original string, not at the partially built replacement).  After a match the
previous character is the last character of the alternative, always a word
character.  Fuel is instantiated with the input length. -/
def subIntroF : Nat → Bool → List Char → List Char
  | 0, _, cs => cs
  | _ + 1, _, [] => []
  | n + 1, prevIsWord, c :: cs =>
    match matchIntro prevIsWord (c :: cs) with
    | some rest => subIntroF n true rest
    | none => c :: subIntroF n (isWordChar c) cs

def subIntro (cs : List Char) : List Char :=
  subIntroF cs.length false cs

/-- The full normalization of `fill_form_field` (main.py lines 155-157):
`text = value.lower().strip()`, then the two substitutions, then `.strip()`. -/
def normalize (value : String) : String :=
  let text := pyStrip (value.toList.map Char.toLower)
  let text := subAtRate text
  let text := pyStrip (subIntro text)
  String.mk text

/-! ## JSON payloads and tool-handler effects -/

/-- JSON values as the backend builds them: strings, `None`, and objects
(dicts given as ordered key/value lists). -/
inductive JVal where
  | str (s : String)
  | null
  | obj (entries : List (String × JVal))

/-- One observable side effect of a tool handler: the value returned to the
model via `params.result_callback`, or the JSON event pushed to the client
via `ws.send_json`. -/
inductive Effect where
  | resultCallback (p : JVal)
  | sendJson (p : JVal)

/-! ## `FormState` (main.py lines 80-93) -/

/-- Python dict assignment `fields[field] = value`: update the value in place
when the key exists, otherwise append the pair at the end. -/
def updateAssoc : List (String × String) → String → String → List (String × String)
  | [], k, v => [(k, v)]
  | (k1, v1) :: rest, k, v =>
    if k1 = k then (k, v) :: rest else (k1, v1) :: updateAssoc rest k v

structure FormState where
  form_type : Option String := none
  fields : List (String × String) := []
deriving DecidableEq

/-- `FormState.open` (main.py lines 85-87): set `form_type` to
`"registration"` and clear the fields.  (`open` is a Lean keyword, hence the
prime.) -/
def FormState.open' (_s : FormState) : FormState :=
  { form_type := some "registration", fields := [] }

/-- `FormState.fill` (main.py lines 89-90). -/
def FormState.fill (s : FormState) (fld v : String) : FormState :=
  { s with fields := updateAssoc s.fields fld v }

/-- `FormState.dump` (main.py lines 92-93): `{"form_type": ..., **fields}`. -/
def FormState.dump (s : FormState) : JVal :=
  JVal.obj (("form_type", match s.form_type with
     | none => JVal.null
     | some t => JVal.str t) :: s.fields.map (fun p => (p.1, JVal.str p.2)))

/-- The fresh per-session state `FormState()` (main.py line 139). -/
def initState : FormState := {}

/-! ## The three tool handlers (main.py lines 142-186), as pure functions
from the captured `form_state` to the new state plus the ordered effects. -/

/-- `open_form` (main.py lines 142-148). -/
def open_form (s : FormState) : FormState × List Effect :=
  let s1 := s.open'
  let resp := JVal.obj [("status", JVal.str "opened"),
                        ("form_type", JVal.str "registration")]
  (s1, [Effect.resultCallback resp, Effect.sendJson resp])

/-- `fill_form_field` (main.py lines 150-177).  The normalization of lines
155-157 is `normalize` above; `field`/`candidate` and the branch on the empty
candidate mirror lines 159-171. -/
def fill_form_field (s : FormState) (value : String) : FormState × List Effect :=
  let s1 := if s.form_type = none then s.open' else s
  let text := normalize value
  let fld := if text.toList.contains '@' then "email" else "name"
  let candidate := text
  if candidate = "" then
    let err := JVal.obj [("error", JVal.str "no_field_detected")]
    (s1, [Effect.resultCallback err, Effect.sendJson err])
  else
    let s2 := s1.fill fld candidate
    let resp := JVal.obj [("status", JVal.str "filled"),
                          ("field", JVal.str fld),
                          ("value", JVal.str candidate)]
    (s2, [Effect.resultCallback resp, Effect.sendJson resp])

/-- `submit_form` (main.py lines 179-186): dump the state, send the
`submitted` payload on both channels, then reopen the form. -/
def submit_form (s : FormState) : FormState × List Effect :=
  let data := s.dump
  let resp := JVal.obj [("status", JVal.str "submitted"), ("data", data)]
  (s.open', [Effect.resultCallback resp, Effect.sendJson resp])

/-- The closed set of tool calls the model can issue (main.py lines 189-199). -/
inductive ToolCall where
  | openF
  | fillF (value : String)
  | submitF

/-- Dispatch one tool call against the session state. -/
def stepTool (s : FormState) : ToolCall → FormState × List Effect
  | .openF => open_form s
  | .fillF v => fill_form_field s v
  | .submitF => submit_form s

/-- Run a sequence of tool calls from a state, keeping only the state
(tool calls within one session execute sequentially). -/
def runTools (s : FormState) : List ToolCall → FormState
  | [] => s
  | c :: cs => runTools (stepTool s c).1 cs

/-! ## The receive loop of `RobustWebsocketTransport` (main.py lines 50-76) -/

/-- The audio frame constructed by the receive loop (and by the serializer). -/
structure InputAudioRawFrame where
  audio : List UInt8
  sample_rate : Nat
  num_channels : Nat
deriving DecidableEq

/-- One inbound websocket event as the loop body observes it:
a binary payload, a text payload, a recognized disconnect raised by
`receive()` (`WebSocketDisconnect` / `ConnectionClosedError`), or any other
exception raised inside the loop body. -/
inductive WsMsg where
  | bytes (b : List UInt8)
  | text (t : String)
  | disconnect
  | fault
deriving DecidableEq

/-- How the receive loop ended. -/
inductive ExitKind where
  | disconnected
  | errorLogged
  | socketClosed
deriving DecidableEq

/-- `_receive_messages` over a trace of inbound events: returns the frames
pushed into the pipeline, in order, and how the loop exited.  An empty binary
payload is falsy in Python and is dropped like a text ping; a disconnect
returns cleanly; any other exception is logged and the loop exits in the
`finally` block — nothing propagates. -/
def receiveLoop : List WsMsg → List InputAudioRawFrame × ExitKind
  | [] => ([], ExitKind.socketClosed)
  | WsMsg.disconnect :: _ => ([], ExitKind.disconnected)
  | WsMsg.fault :: _ => ([], ExitKind.errorLogged)
  | WsMsg.bytes b :: rest =>
    if b = [] then receiveLoop rest
    else
      let r := receiveLoop rest
      (⟨b, 16000, 1⟩ :: r.1, r.2)
  | WsMsg.text _ :: rest => receiveLoop rest

/-! ## The credential check of `websocket_endpoint` (main.py lines 115-125) -/

/-- What a session does right after `await ws.accept()`, abstracted:
send a JSON payload, close the socket with a close code, or go on to build
the transport/pipeline and run it (main.py lines 127-241). -/
inductive SessionAction where
  | sendJson (p : JVal)
  | close (code : Nat)
  | runPipeline (voice : String)

/-- The credential gate of `websocket_endpoint`: `os.getenv` yields `none`
when the variable is unset, and Python's `if not api_key` also catches the
empty string.  On a missing credential the handler sends the error payload,
closes with code 4401 and returns; otherwise it proceeds to the pipeline
(with `voice or "Puck"`, main.py line 192). -/
def websocket_endpoint (api_key : Option String) (voice : Option String) :
    List SessionAction :=
  let missing := match api_key with
    | none => true
    | some k => k = ""
  if missing then
    [SessionAction.sendJson (JVal.obj [("error", JVal.str "GEMINI_API_KEY not set")]),
     SessionAction.close 4401]
  else
    [SessionAction.runPipeline ((voice.filter (fun v => v ≠ "")).getD "Puck")]

/-! ## Barge-in / interruption policy of the frame pipeline -/

/-- Modelled from the spec: the interruption behavior of the frame pipeline.
main.py only configures it (`PipelineTask` with `allow_interruptions=True`,
lines 230-234); the cancellation mechanics live in the pipecat library, not
in this repository.  Following section 4.2 of the specification, the state
tracks whether a model generation is in flight, the output frames queued but
not yet sent to the transport, and the frames already delivered. -/
structure PipeState where
  inFlight : Bool
  outBuffer : List Nat
  delivered : List Nat
deriving DecidableEq

/-- Modelled from the spec: pipeline events relevant to barge-in.
`speechStart` is the Turn Controller signalling new speech; `startGen` begins
a model generation; `modelEmit` is the model-service stage producing an
output frame (queued for the transport); `deliverNext` is the transport
output adapter sending the oldest queued frame. -/
inductive PipeEvent where
  | speechStart
  | startGen
  | modelEmit (f : Nat)
  | deliverNext
deriving DecidableEq

/-- Modelled from the spec: one pipeline step.  On `speechStart` the
in-flight generation is cancelled and every buffered not-yet-sent output
frame is discarded. -/
def pipeStep (s : PipeState) : PipeEvent → PipeState
  | .speechStart => { s with inFlight := false, outBuffer := [] }
  | .startGen => { s with inFlight := true }
  | .modelEmit f =>
    if s.inFlight then { s with outBuffer := s.outBuffer ++ [f] } else s
  | .deliverNext =>
    match s.outBuffer with
    | [] => s
    | f :: rest => { s with outBuffer := rest, delivered := s.delivered ++ [f] }

/-- Run the pipeline over a sequence of events. -/
def pipeRun (s : PipeState) : List PipeEvent → PipeState
  | [] => s
  | e :: es => pipeRun (pipeStep s e) es

/-! ## Helper lemmas -/

theorem lookup_updateAssoc (l : List (String × String)) (k v : String) :
    (updateAssoc l k v).lookup k = some v := by
  induction l with
  | nil => simp [updateAssoc, List.lookup]
  | cons p rest ih =>
    obtain ⟨k1, v1⟩ := p
    by_cases h : k1 = k
    · simp [updateAssoc, h, List.lookup]
    · have hbeq : (k == k1) = false :=
        beq_eq_false_iff_ne.mpr (fun hh => h hh.symm)
      simp [updateAssoc, h, List.lookup, hbeq, ih]

/-- The success path of `fill_form_field`: when the normalized candidate is
non-empty, the field is written and the `filled` payload goes out on both
channels. -/
theorem fill_form_field_success (s : FormState) (v : String)
    (h : ¬normalize v = "") :
    fill_form_field s v =
      ((if s.form_type = none then s.open' else s).fill
         (if (normalize v).toList.contains '@' then "email" else "name")
         (normalize v),
       [Effect.resultCallback (JVal.obj [("status", JVal.str "filled"),
          ("field", JVal.str (if (normalize v).toList.contains '@'
            then "email" else "name")),
          ("value", JVal.str (normalize v))]),
        Effect.sendJson (JVal.obj [("status", JVal.str "filled"),
          ("field", JVal.str (if (normalize v).toList.contains '@'
            then "email" else "name")),
          ("value", JVal.str (normalize v))])]) := by
  simp [fill_form_field, h]

/-- The error path of `fill_form_field`: when the normalized candidate is
empty, no field is written and the error payload goes out on both channels;
the state is the (possibly implicitly opened) `s1`. -/
theorem fill_form_field_empty (s : FormState) (v : String)
    (h : normalize v = "") :
    fill_form_field s v =
      ((if s.form_type = none then s.open' else s),
       [Effect.resultCallback (JVal.obj [("error", JVal.str "no_field_detected")]),
        Effect.sendJson (JVal.obj [("error", JVal.str "no_field_detected")])]) := by
  simp [fill_form_field, h]

/-- After any tool handler the form is open: `form_type` is never `None`. -/
theorem stepTool_form_type_ne (s : FormState) (c : ToolCall) :
    (stepTool s c).1.form_type ≠ none := by
  cases c with
  | openF => simp [stepTool, open_form, FormState.open']
  | submitF => simp [stepTool, submit_form, FormState.open']
  | fillF v =>
    by_cases h2 : normalize v = ""
    · rw [stepTool, fill_form_field_empty s v h2]
      by_cases h : s.form_type = none <;> simp [h, FormState.open']
    · rw [stepTool, fill_form_field_success s v h2]
      by_cases h : s.form_type = none <;> simp [h, FormState.open', FormState.fill]

/-- The fields-only invariant is preserved along any run of tool calls. -/
theorem runTools_inv (cs : List ToolCall) (s : FormState)
    (h : s.form_type = none → s.fields = []) :
    (runTools s cs).form_type = none → (runTools s cs).fields = [] := by
  induction cs generalizing s with
  | nil => simpa [runTools] using h
  | cons c cs ih =>
    simp only [runTools]
    exact ih (stepTool s c).1 (fun hn => absurd hn (stepTool_form_type_ne s c))

/-- One pipeline step only delivers frames that were delivered or queued. -/
theorem pipeStep_delivered_sub (s : PipeState) (e : PipeEvent) (f : Nat)
    (h : f ∈ (pipeStep s e).delivered) :
    f ∈ s.delivered ∨ f ∈ s.outBuffer := by
  cases e with
  | speechStart => exact Or.inl h
  | startGen => exact Or.inl h
  | modelEmit g =>
    by_cases hf : s.inFlight <;> simp_all [pipeStep]
  | deliverNext =>
    rcases hb : s.outBuffer with _ | ⟨g, rest⟩ <;> simp_all [pipeStep]
    rcases h with h | h
    · exact Or.inl h
    · exact Or.inr (Or.inl h)

/-- One pipeline step only queues frames that were queued or are emitted by
the model at that step. -/
theorem pipeStep_outBuffer_sub (s : PipeState) (e : PipeEvent) (f : Nat)
    (h : f ∈ (pipeStep s e).outBuffer) :
    f ∈ s.outBuffer ∨ e = PipeEvent.modelEmit f := by
  cases e with
  | speechStart => simp [pipeStep] at h
  | startGen => exact Or.inl h
  | modelEmit g =>
    by_cases hf : s.inFlight <;> simp_all [pipeStep]
    rcases h with h | h
    · exact Or.inl h
    · exact Or.inr h.symm
  | deliverNext =>
    rcases hb : s.outBuffer with _ | ⟨g, rest⟩ <;> simp_all [pipeStep]

/-- Anything the pipeline delivers was already delivered, was already queued,
or is emitted by the model during the run. -/
theorem pipeRun_delivered_mem (es : List PipeEvent) (s : PipeState) (f : Nat)
    (h : f ∈ (pipeRun s es).delivered) :
    f ∈ s.delivered ∨ f ∈ s.outBuffer ∨ PipeEvent.modelEmit f ∈ es := by
  induction es generalizing s with
  | nil => exact Or.inl (by simpa [pipeRun] using h)
  | cons e es ih =>
    have step := ih (pipeStep s e) (by simpa [pipeRun] using h)
    rcases step with h1 | h2 | h3
    · rcases pipeStep_delivered_sub s e f h1 with hd | hq
      · exact Or.inl hd
      · exact Or.inr (Or.inl hq)
    · rcases pipeStep_outBuffer_sub s e f h2 with hq | he
      · exact Or.inr (Or.inl hq)
      · exact Or.inr (Or.inr (he ▸ List.mem_cons_self e es))
    · exact Or.inr (Or.inr (List.mem_cons_of_mem e h3))

/-- Every frame the receive loop pushes is a 16 kHz mono frame whose payload
arrived as a binary message of the trace. -/
theorem receiveLoop_frames_mem (msgs : List WsMsg) (f : InputAudioRawFrame)
    (h : f ∈ (receiveLoop msgs).1) :
    f.sample_rate = 16000 ∧ f.num_channels = 1 ∧ WsMsg.bytes f.audio ∈ msgs := by
  induction msgs with
  | nil => simp [receiveLoop] at h
  | cons m rest ih =>
    cases m with
    | disconnect => simp [receiveLoop] at h
    | fault => simp [receiveLoop] at h
    | text t =>
      have := ih (by simpa [receiveLoop] using h)
      exact ⟨this.1, this.2.1, List.mem_cons_of_mem _ this.2.2⟩
    | bytes b =>
      by_cases hb : b = []
      · have := ih (by simpa [receiveLoop, hb] using h)
        exact ⟨this.1, this.2.1, List.mem_cons_of_mem _ this.2.2⟩
      · have h : f = ⟨b, 16000, 1⟩ ∨ f ∈ (receiveLoop rest).1 := by
          simpa [receiveLoop, hb] using h
        rcases h with rfl | hmem
        · exact ⟨rfl, rfl, by simp⟩
        · have := ih hmem
          exact ⟨this.1, this.2.1, List.mem_cons_of_mem _ this.2.2⟩

/-! ## Claim theorems -/

/-- C6: `open_form` always succeeds from every prior state: it sets
`form_type = "registration"`, clears all fields, returns/emits
`{"status": "opened", "form_type": "registration"}` on both channels, and a
`dump()` state query immediately after yields
`{form_type: "registration", fields: {}}`. -/
theorem open_form_always_opens (s : FormState) :
    open_form s =
      ({ form_type := some "registration", fields := [] },
       [Effect.resultCallback (JVal.obj [("status", JVal.str "opened"),
          ("form_type", JVal.str "registration")]),
        Effect.sendJson (JVal.obj [("status", JVal.str "opened"),
          ("form_type", JVal.str "registration")])]) ∧
    (open_form s).1.dump = JVal.obj [("form_type", JVal.str "registration")] :=
  ⟨rfl, rfl⟩

/-- C5: `submit_form` emits, on both channels, exactly the snapshot
`{form_type, ...fields}` of the state at call time, and immediately reopens
the form: the post state is `form_type = "registration"` with an empty fields
map, whose dump is `{form_type: "registration"}`; the emitted snapshot is
computed from the pre state only, hence unaffected by the reopening. -/
theorem submit_form_snapshot_and_reopen (s : FormState) :
    (submit_form s).2 =
      [Effect.resultCallback (JVal.obj [("status", JVal.str "submitted"),
         ("data", s.dump)]),
       Effect.sendJson (JVal.obj [("status", JVal.str "submitted"),
         ("data", s.dump)])] ∧
    (submit_form s).1 = { form_type := some "registration", fields := [] } ∧
    (submit_form s).1.dump = JVal.obj [("form_type", JVal.str "registration")] :=
  ⟨rfl, rfl, rfl⟩

/-- C7: every tool invocation, on every execution path including the failure
path, produces both outputs: a value returned to the model via the result
callback and an independent JSON event pushed to the client, in that order. -/
theorem tools_dual_output (s : FormState) (v : String) :
    (∃ p, (open_form s).2 = [Effect.resultCallback p, Effect.sendJson p]) ∧
    (∃ p, (fill_form_field s v).2 = [Effect.resultCallback p, Effect.sendJson p]) ∧
    (∃ p, (submit_form s).2 = [Effect.resultCallback p, Effect.sendJson p]) := by
  refine ⟨⟨_, rfl⟩, ?_, ⟨_, rfl⟩⟩
  by_cases h : normalize v = ""
  · exact ⟨_, by rw [fill_form_field_empty s v h]⟩
  · exact ⟨_, by rw [fill_form_field_success s v h]⟩

/-- C2 counterexample: the claim says that on an input collapsing to empty
"no mutation occurs", but on a fresh session state the handler first
implicitly opens the form, so the state does change (its `form_type` becomes
`"registration"`) even though the error is emitted. -/
theorem fill_empty_mutates_cex :
    (fill_form_field initState "   ").2 =
      [Effect.resultCallback (JVal.obj [("error", JVal.str "no_field_detected")]),
       Effect.sendJson (JVal.obj [("error", JVal.str "no_field_detected")])] ∧
    (fill_form_field initState "   ").1 ≠ initState :=
  ⟨rfl, by decide⟩

/-- C2 amended: for every state whose unopened form has an empty fields map
(true of every reachable state) and every input whose normalized candidate is
empty, `fill_form_field` fails with the `no_field_detected` payload on both
channels and the fields map is unchanged; the only possible mutation is the
implicit open, which sets `form_type` to `"registration"` when no form was
open. -/
theorem fill_empty_no_field_detected (s : FormState) (v : String)
    (hinv : s.form_type = none → s.fields = [])
    (h : normalize v = "") :
    (fill_form_field s v).1.fields = s.fields ∧
    (fill_form_field s v).1.form_type =
      (if s.form_type = none then some "registration" else s.form_type) ∧
    (fill_form_field s v).2 =
      [Effect.resultCallback (JVal.obj [("error", JVal.str "no_field_detected")]),
       Effect.sendJson (JVal.obj [("error", JVal.str "no_field_detected")])] := by
  rw [fill_form_field_empty s v h]
  by_cases hn : s.form_type = none
  · simp [hn, FormState.open', hinv hn]
  · simp [hn]

theorem fill_empty_no_field_detected_witness :
    (fill_form_field initState "   ").1.fields = initState.fields ∧
    (fill_form_field initState "   ").1.form_type =
      (if initState.form_type = none then some "registration"
       else initState.form_type) ∧
    (fill_form_field initState "   ").2 =
      [Effect.resultCallback (JVal.obj [("error", JVal.str "no_field_detected")]),
       Effect.sendJson (JVal.obj [("error", JVal.str "no_field_detected")])] :=
  fill_empty_no_field_detected initState "   " (fun _ => rfl) (by decide)

/-- C3: `fill_form_field "my name is John"` lowercases and trims the value,
strips the leading self-introduction phrase, records field `"name"` with
value `"john"` (from every prior state), and emits the corresponding `filled`
payload on both channels. -/
theorem fill_my_name_is_john (s : FormState) :
    normalize "my name is John" = "john" ∧
    ((fill_form_field s "my name is John").1.fields.lookup "name"
      = some "john") ∧
    (fill_form_field s "my name is John").2 =
      [Effect.resultCallback (JVal.obj [("status", JVal.str "filled"),
         ("field", JVal.str "name"), ("value", JVal.str "john")]),
       Effect.sendJson (JVal.obj [("status", JVal.str "filled"),
         ("field", JVal.str "name"), ("value", JVal.str "john")])] := by
  have hn : normalize "my name is John" = "john" := by decide
  have hne : ¬normalize "my name is John" = "" := by rw [hn]; decide
  have hs := fill_form_field_success s "my name is John" hne
  rw [hn] at hs
  have hat : ("john".toList.contains '@') = false := by decide
  rw [hat] at hs
  simp only [if_false, Bool.false_eq_true] at hs
  refine ⟨hn, ?_, ?_⟩
  · rw [hs]
    exact lookup_updateAssoc _ _ _
  · rw [hs]

/-- C4: the normalization collapses "at the rate [of]" into the literal `@`,
and the normalized string is classified as field `email` exactly when it
contains `@` (otherwise as `name`); on
`"email is john at the rate example.com"` the recorded `email` value is
`"email is john@example.com"`, which contains exactly one `@` and a
normalized lowercase domain. -/
theorem fill_email_classification :
    (∀ (s : FormState) (v : String), ¬normalize v = "" →
      (fill_form_field s v).2 =
        [Effect.resultCallback (JVal.obj [("status", JVal.str "filled"),
           ("field", JVal.str (if (normalize v).toList.contains '@'
             then "email" else "name")),
           ("value", JVal.str (normalize v))]),
         Effect.sendJson (JVal.obj [("status", JVal.str "filled"),
           ("field", JVal.str (if (normalize v).toList.contains '@'
             then "email" else "name")),
           ("value", JVal.str (normalize v))])]) ∧
    normalize "email is john at the rate example.com"
      = "email is john@example.com" ∧
    ((fill_form_field initState
        "email is john at the rate example.com").1.fields.lookup "email"
      = some "email is john@example.com") ∧
    ("email is john@example.com".toList.count '@') = 1 := by
  refine ⟨?_, by decide, ?_, by decide⟩
  · intro s v h
    rw [fill_form_field_success s v h]
  · have hn : normalize "email is john at the rate example.com"
        = "email is john@example.com" := by decide
    have hne : ¬normalize "email is john at the rate example.com" = "" := by
      rw [hn]; decide
    have hs := fill_form_field_success initState
      "email is john at the rate example.com" hne
    rw [hn] at hs
    have hat : ("email is john@example.com".toList.contains '@') = true := by
      decide
    rw [hat] at hs
    simp only [if_true] at hs
    rw [hs]
    exact lookup_updateAssoc _ _ _

theorem fill_email_classification_witness :
    (fill_form_field initState "email is john at the rate example.com").2 =
      [Effect.resultCallback (JVal.obj [("status", JVal.str "filled"),
         ("field", JVal.str (if (normalize
             "email is john at the rate example.com").toList.contains '@'
           then "email" else "name")),
         ("value", JVal.str (normalize
             "email is john at the rate example.com"))]),
       Effect.sendJson (JVal.obj [("status", JVal.str "filled"),
         ("field", JVal.str (if (normalize
             "email is john at the rate example.com").toList.contains '@'
           then "email" else "name")),
         ("value", JVal.str (normalize
             "email is john at the rate example.com"))])] :=
  fill_email_classification.1 initState
    "email is john at the rate example.com" (by decide)

/-- C1: when the Turn Controller signals speech-start, the pipeline cancels
the in-flight generation and discards every buffered not-yet-sent output
frame; consequently anything delivered to the transport after the signal was
either already delivered before it or is emitted by the model afterwards —
queued/unsent output from before the signal is never delivered. -/
theorem barge_in_cancels_and_discards (s : PipeState) (es : List PipeEvent)
    (f : Nat)
    (h : f ∈ (pipeRun (pipeStep s PipeEvent.speechStart) es).delivered) :
    (pipeStep s PipeEvent.speechStart).outBuffer = [] ∧
    (pipeStep s PipeEvent.speechStart).inFlight = false ∧
    (f ∈ s.delivered ∨ PipeEvent.modelEmit f ∈ es) := by
  refine ⟨rfl, rfl, ?_⟩
  rcases pipeRun_delivered_mem es (pipeStep s PipeEvent.speechStart) f h
    with h1 | h2 | h3
  · exact Or.inl h1
  · simp [pipeStep] at h2
  · exact Or.inr h3

theorem barge_in_cancels_and_discards_witness :
    (pipeStep ⟨true, [3], [7]⟩ PipeEvent.speechStart).outBuffer = [] ∧
    (pipeStep ⟨true, [3], [7]⟩ PipeEvent.speechStart).inFlight = false ∧
    ((7 : Nat) ∈ (⟨true, [3], [7]⟩ : PipeState).delivered ∨
      PipeEvent.modelEmit 7 ∈ ([] : List PipeEvent)) :=
  barge_in_cancels_and_discards ⟨true, [3], [7]⟩ [] 7 (by decide)

/-- C8: every frame the receive loop pushes into the pipeline is an
`InputAudioRawFrame` at 16,000 Hz with 1 channel, decoded from a binary
payload of the trace; text payloads and empty binary payloads are silently
discarded; a recognized disconnect returns cleanly and any other exception is
logged and exits the loop in order — in every case the loop returns instead
of propagating a fault. -/
theorem receive_loop_safe :
    (∀ (msgs : List WsMsg) (f : InputAudioRawFrame),
      f ∈ (receiveLoop msgs).1 →
      f.sample_rate = 16000 ∧ f.num_channels = 1 ∧
        WsMsg.bytes f.audio ∈ msgs) ∧
    (∀ (t : String) (msgs : List WsMsg),
      receiveLoop (WsMsg.text t :: msgs) = receiveLoop msgs) ∧
    (∀ msgs : List WsMsg,
      receiveLoop (WsMsg.bytes [] :: msgs) = receiveLoop msgs) ∧
    (∀ msgs : List WsMsg,
      receiveLoop (WsMsg.disconnect :: msgs) = ([], ExitKind.disconnected)) ∧
    (∀ msgs : List WsMsg,
      receiveLoop (WsMsg.fault :: msgs) = ([], ExitKind.errorLogged)) := by
  refine ⟨receiveLoop_frames_mem, fun t msgs => rfl, fun msgs => ?_,
    fun msgs => rfl, fun msgs => rfl⟩
  simp [receiveLoop]

theorem receive_loop_safe_witness :
    (⟨[1], 16000, 1⟩ : InputAudioRawFrame).sample_rate = 16000 ∧
    (⟨[1], 16000, 1⟩ : InputAudioRawFrame).num_channels = 1 ∧
    WsMsg.bytes (⟨[1], 16000, 1⟩ : InputAudioRawFrame).audio
      ∈ [WsMsg.bytes [1]] :=
  receive_loop_safe.1 [WsMsg.bytes [1]] ⟨[1], 16000, 1⟩ (by decide)

/-- C9: when the API credential is missing at connection accept, the session
sends exactly the payload `{"error": "GEMINI_API_KEY not set"}`, closes the
connection with application close code 4401, and performs nothing else — in
particular it never reaches the pipeline-construction step.  (The handler is
per-session: no other session's actions appear in its list.) -/
theorem missing_api_key_closes_4401 (voice : Option String) :
    websocket_endpoint none voice =
      [SessionAction.sendJson
         (JVal.obj [("error", JVal.str "GEMINI_API_KEY not set")]),
       SessionAction.close 4401] ∧
    websocket_endpoint (some "") voice =
      [SessionAction.sendJson
         (JVal.obj [("error", JVal.str "GEMINI_API_KEY not set")]),
       SessionAction.close 4401] :=
  ⟨rfl, rfl⟩

/-- C10: the invariant "whenever `form_type` is `None` the fields map is
empty" holds at every state reachable from the initial session state by tool
calls: `fill_form_field` implicitly opens a form before any write and
`open_form`/`submit_form` clear the fields while setting `form_type`, so
`form_type` is never `None` after any handler and the only reachable state
with `form_type = None` is the initial one, whose fields map is empty. -/
theorem form_invariant_reachable (calls : List ToolCall)
    (h : (runTools initState calls).form_type = none) :
    (runTools initState calls).fields = [] :=
  runTools_inv calls initState (fun _ => rfl) h

theorem form_invariant_reachable_witness :
    (runTools initState []).fields = [] :=
  form_invariant_reachable [] rfl

end VoiceAgent
